import Mathlib

/-!
Verification of the usb-oxide xHCI/USB host stack core.

This file shallowly embeds the core of the driver (src/reg.rs, src/dev.rs,
src/xhci.rs, src/desc.rs) in Lean and proves the stated properties about it.
The ring layer (src/ring.rs) is declared in src/lib.rs but its source file is
absent from the tree; the definitions that stand in for it are modelled from
the specification and are marked as such in their doc comments.

Machine integers are modelled as `Nat` with explicit masking where the Rust
code truncates; MMIO interaction is modelled by read oracles (`Nat → Nat`,
the value delivered by the n-th read of a register) together with explicit
write traces; busy-wait loops take a fuel argument, and `none` means the
loop was not observed to terminate within the fuel.
-/

set_option linter.unusedVariables false
set_option linter.unnecessarySeqFocus false

namespace UsbOxide

/-! ### Register constants and helpers (src/reg.rs) -/

/-- Run/Stop bit of USBCMD (src/reg.rs line 51). -/
def USBCMD_RUN : Nat := 1 <<< 0

/-- Host Controller Reset bit of USBCMD (src/reg.rs line 53). -/
def USBCMD_HCRST : Nat := 1 <<< 1

/-- Interrupter Enable bit of USBCMD (src/reg.rs line 55). -/
def USBCMD_INTE : Nat := 1 <<< 2

/-- Host Controller Halted bit of USBSTS (src/reg.rs line 82). -/
def USBSTS_HCH : Nat := 1 <<< 0

/-- Controller Not Ready bit of USBSTS (src/reg.rs line 96). -/
def USBSTS_CNR : Nat := 1 <<< 11

/-- Port Reset bit of PORTSC (src/reg.rs line 124). -/
def PORTSC_PR : Nat := 1 <<< 4

/-- Port Power bit of PORTSC (src/reg.rs line 128). -/
def PORTSC_PP : Nat := 1 <<< 9

/-- Port Reset Change bit of PORTSC (src/reg.rs line 144). -/
def PORTSC_PRC : Nat := 1 <<< 21

/-- Full Speed port speed code (src/reg.rs line 198). -/
def SPEED_FULL : Nat := 1

/-- Low Speed port speed code (src/reg.rs line 200). -/
def SPEED_LOW : Nat := 2

/-- High Speed port speed code (src/reg.rs line 202). -/
def SPEED_HIGH : Nat := 3

/-- Base offset of a port register set (src/reg.rs lines 258-260). -/
def port_reg_base (cap_length port : Nat) : Nat :=
  cap_length + 0x400 + port * 0x10

/-- Doorbell register offset (src/reg.rs lines 263-265). -/
def doorbell (db_offset slot : Nat) : Nat :=
  db_offset + slot * 4

/-! ### TRB and completion codes

src/ring.rs is absent from the source tree, so the TRB layout, type codes
and completion codes are modelled from the specification (sections 3
and 4.1). -/

/-- Modelled from the spec: a 16-byte TRB with 64-bit parameter, 32-bit
status and 32-bit control words (src/ring.rs is not in the tree). -/
structure Trb where
  param : Nat
  status : Nat
  control : Nat
deriving DecidableEq

/-- Modelled from the spec: TRB type, control bits 15:10. -/
def Trb.trb_type (t : Trb) : Nat := (t.control >>> 10) &&& 0x3f

/-- Modelled from the spec: completion code, status bits 31:24. -/
def Trb.completion_code (t : Trb) : Nat := (t.status >>> 24) &&& 0xff

/-- Modelled from the spec: slot id, control bits 31:24. -/
def Trb.slot_id (t : Trb) : Nat := (t.control >>> 24) &&& 0xff

/-- Modelled from the spec: transfer length residual, status bits 23:0. -/
def Trb.transfer_length (t : Trb) : Nat := t.status &&& 0xffffff

/-- TRT field of a Setup Stage TRB, control bits 17:16. -/
def Trb.trt (t : Trb) : Nat := (t.control >>> 16) &&& 3

/-- DIR bit of a Data or Status Stage TRB, control bit 16. -/
def Trb.dir_bit (t : Trb) : Nat := (t.control >>> 16) &&& 1

namespace trb_type

/-- Modelled from the spec: Normal TRB type code. -/
def NORMAL : Nat := 1

/-- Modelled from the spec: Setup Stage TRB type code. -/
def SETUP : Nat := 2

/-- Modelled from the spec: Data Stage TRB type code. -/
def DATA : Nat := 3

/-- Modelled from the spec: Status Stage TRB type code. -/
def STATUS : Nat := 4

/-- Modelled from the spec: Configure Endpoint command TRB type code. -/
def CONFIGURE_ENDPOINT : Nat := 12

/-- Modelled from the spec: Transfer Event TRB type code. -/
def TRANSFER_EVENT : Nat := 32

end trb_type

namespace completion

/-- Modelled from the spec: Success completion code. -/
def SUCCESS : Nat := 1

/-- Modelled from the spec: Stall Error completion code. -/
def STALL_ERROR : Nat := 6

/-- Modelled from the spec: Short Packet completion code. -/
def SHORT_PACKET : Nat := 13

end completion

/-! ### Errors (src/err.rs) -/

/-- USB driver error type (src/err.rs lines 7-32). -/
inductive UsbError where
  | Timeout
  | OoRam
  | MapFail
  | InvSlot
  | InvPort
  | InvEndpoint
  | CmdFail (code : Nat)
  | XferFail (code : Nat)
  | DeviceNotFound
  | NotSupported
  | InvalidDescriptor
  | Stall
deriving DecidableEq

/-! ### Descriptors (src/desc.rs) -/

/-- USB setup packet (src/desc.rs lines 766-777); all fields are byte- or
halfword-sized machine integers, modelled as `Nat`. -/
structure SetupPacket where
  request_type : Nat
  request : Nat
  value : Nat
  index : Nat
  length : Nat
deriving DecidableEq

/-- The 8 setup bytes packed little-endian into a 64-bit immediate, as done
by reading the `repr(C, packed)` struct as a `u64` (src/dev.rs line 245). -/
def SetupPacket.as_u64 (s : SetupPacket) : Nat :=
  s.request_type ||| (s.request <<< 8) ||| (s.value <<< 16) |||
    (s.index <<< 32) ||| (s.length <<< 48)

/-- USB endpoint descriptor (src/desc.rs lines 479-492). -/
structure EndpointDesc where
  length : Nat
  desc_type : Nat
  endpoint_address : Nat
  attributes : Nat
  max_packet_size : Nat
  interval : Nat
deriving DecidableEq

/-- Endpoint number, low 4 bits of the address (src/desc.rs lines 496-498). -/
def EndpointDesc.number (e : EndpointDesc) : Nat := e.endpoint_address &&& 0x0f

/-- IN endpoint predicate, address bit 7 (src/desc.rs lines 501-503). -/
def EndpointDesc.is_in (e : EndpointDesc) : Bool :=
  (e.endpoint_address &&& 0x80) != 0

/-- Transfer type, low 2 bits of the attributes (src/desc.rs lines 511-513). -/
def EndpointDesc.transfer_type (e : EndpointDesc) : Nat := e.attributes &&& 0x03

/-! ### Producer ring

Modelled from the spec (section 4.1); src/ring.rs is not in the tree. -/

/-- Modelled from the spec: producer ring state - TRB slots, enqueue index
and producer cycle state. -/
structure Ring where
  slots : List Trb
  enq : Nat
  pcs : Bool
deriving DecidableEq

/-- Modelled from the spec: enqueue writes the TRB at the enqueue index with
its cycle bit forced to PCS, advances the index, and on landing on the Link
TRB (last slot) sets the Link TRB cycle bit to the outgoing PCS, toggles PCS
and wraps the index to 0. -/
def Ring.enqueue (r : Ring) (t : Trb) : Ring :=
  let size := r.slots.length
  let t2 : Trb :=
    { t with control := (t.control &&& 0xfffffffe) ||| (if r.pcs then 1 else 0) }
  let slots2 := r.slots.set r.enq t2
  let next := r.enq + 1
  if next = size - 1 then
    let link := slots2.getD (size - 1) { param := 0, status := 0, control := 0 }
    let link2 : Trb :=
      { link with control := (link.control &&& 0xfffffffe) ||| (if r.pcs then 1 else 0) }
    { slots := slots2.set (size - 1) link2, enq := 0, pcs := !r.pcs }
  else
    { slots := slots2, enq := next, pcs := r.pcs }

/-! ### Busy-wait polling

Every spin loop in the driver repeatedly reads one register until a
predicate on the read value holds (src/xhci.rs lines 134-136, 141-146,
171-173, 306-312).  `pollUntil reads done i fuel` returns the index of the
first read at or after `i` whose value satisfies `done`, or `none` when the
fuel is exhausted first. -/

def pollUntil (reads : Nat → Nat) (done : Nat → Bool) : Nat → Nat → Option Nat
  | _, 0 => none
  | i, fuel + 1 => if done (reads i) then some i else pollUntil reads done (i + 1) fuel

/-! ### Control transfer (src/dev.rs lines 215-328)

The model makes the implicit inputs explicit: `slot` is the device's slot
id, `ring0` the EP0 ring, `alloc_ok` whether the DMA allocation inside the
call succeeds, `buf_phys` the physical address the allocation would have,
`delivered` the bytes the device DMA-writes into the data buffer for an IN
transfer, and `events` the sequence of TRBs the event ring yields to
`poll_event` (polls that yield nothing merely spin and are dropped). -/

/-- The first event that is a Transfer Event for this slot; the wait loop in
`control_transfer` spins past everything else (src/dev.rs lines 285-288). -/
def findTransferEvent (slot : Nat) : List Trb → Option Trb
  | [] => none
  | e :: rest =>
    if e.trb_type = trb_type.TRANSFER_EVENT ∧ e.slot_id = slot then some e
    else findTransferEvent slot rest

/-- The Setup / Data / Status Stage TRBs assembled by `control_transfer`
(src/dev.rs lines 243-277); the Data Stage TRB is present exactly when a
data buffer was allocated, i.e. when `data_len > 0`. -/
def control_trbs (setup : SetupPacket) (data_len buf_phys : Nat) : List Trb :=
  let data_dir := (setup.request_type &&& 0x80) != 0
  let setup_trb : Trb :=
    { param := setup.as_u64
      status := 8
      control := (trb_type.SETUP <<< 10) ||| (1 <<< 6) |||
        (if 0 < data_len ∧ 0 < setup.length then
          (if data_dir then 3 <<< 16 else 2 <<< 16)
        else 0) }
  let data_trb : Trb :=
    { param := buf_phys
      status := setup.length
      control := (trb_type.DATA <<< 10) |||
        (if data_dir then 1 <<< 16 else 0) ||| (1 <<< 5) }
  let status_trb : Trb :=
    { param := 0
      status := 0
      control := (trb_type.STATUS <<< 10) |||
        (if 0 < data_len ∧ 0 < setup.length ∧ data_dir then 0 else 1 <<< 16) |||
        (1 <<< 5) }
  if 0 < data_len then [setup_trb, data_trb, status_trb]
  else [setup_trb, status_trb]

/-- Observable outcome of one `control_transfer` call. -/
structure CtResult where
  /-- EP0 ring after the call. -/
  ring : Ring
  /-- TRBs enqueued on the EP0 ring, in order, as assembled (before the
  cycle bit is forced by the ring). -/
  emitted : List Trb
  /-- Return value of the call. -/
  outcome : Except UsbError Nat
  /-- The caller's buffer after the call. -/
  buf : Option (List Nat)
  /-- Whether a DMA data buffer was allocated. -/
  allocated : Bool
  /-- Whether the DMA data buffer was freed before returning. -/
  freed : Bool

/-- Control transfer (src/dev.rs lines 215-328).  Returns `none` when no
Transfer Event for this slot ever arrives (the wait loop would spin
forever).  The usize subtraction producing the transferred count is
modelled with wraparound modulo 2^64. -/
def control_transfer (slot : Nat) (ring0 : Ring) (setup : SetupPacket)
    (data : Option (List Nat)) (alloc_ok : Bool) (buf_phys : Nat)
    (delivered : List Nat) (events : List Trb) : Option CtResult :=
  let data_dir := (setup.request_type &&& 0x80) != 0
  let data_len := (data.map List.length).getD 0
  if 0 < data_len ∧ alloc_ok = false then
    some { ring := ring0, emitted := [], outcome := Except.error UsbError.OoRam
           buf := data, allocated := false, freed := false }
  else
    let buf_contents : List Nat :=
      if 0 < data_len ∧ data_dir = false then data.getD [] else delivered
    let emitted := control_trbs setup data_len buf_phys
    let ring1 := emitted.foldl Ring.enqueue ring0
    match findTransferEvent slot events with
    | none => none
    | some evt =>
      let code := evt.completion_code
      let was_alloc := decide (0 < data_len)
      if code = completion.SUCCESS ∨ code = completion.SHORT_PACKET then
        let transferred := (setup.length + 2 ^ 64 - evt.transfer_length) % 2 ^ 64
        let newbuf : Option (List Nat) :=
          if data_dir then
            match data with
            | some d =>
              if 0 < data_len then
                some (buf_contents.take (min transferred d.length) ++
                  d.drop (min transferred d.length))
              else some d
            | none => none
          else data
        some { ring := ring1, emitted := emitted, outcome := Except.ok transferred
               buf := newbuf, allocated := was_alloc, freed := was_alloc }
      else if code = completion.STALL_ERROR then
        some { ring := ring1, emitted := emitted, outcome := Except.error UsbError.Stall
               buf := data, allocated := was_alloc, freed := was_alloc }
      else
        some { ring := ring1, emitted := emitted
               outcome := Except.error (UsbError.XferFail code)
               buf := data, allocated := was_alloc, freed := was_alloc }

/-! ### xHCI interval derivation (src/dev.rs lines 400-413)

The Rust code uses `u32::is_power_of_two`, `u32::trailing_zeros` and
`u32::leading_zeros`; these standard intrinsics are modelled below on `Nat`
restricted to 32-bit values. -/

/-- Trailing-zero count by repeated halving with structural fuel; models
`u32::trailing_zeros` for nonzero 32-bit values when run with fuel 32. -/
def tzAux : Nat → Nat → Nat
  | _, 0 => 0
  | n, fuel + 1 => if n % 2 = 1 then 0 else tzAux (n / 2) fuel + 1

/-- Models `u32::trailing_zeros`. -/
def u32_trailing_zeros (n : Nat) : Nat :=
  if n = 0 then 32 else tzAux n 32

/-- Binary length by repeated halving with structural fuel; with fuel 32
this is the bit length of a 32-bit value. -/
def bitlenAux : Nat → Nat → Nat
  | _, 0 => 0
  | n, fuel + 1 => if n = 0 then 0 else bitlenAux (n / 2) fuel + 1

/-- Models `u32::leading_zeros`: 32 minus the bit length. -/
def u32_leading_zeros (n : Nat) : Nat := 32 - bitlenAux n 32

/-- Models `u32::is_power_of_two`: a 32-bit value is a power of two iff it
is nonzero and equals two to its bit length less one. -/
def u32_is_power_of_two (n : Nat) : Bool :=
  n != 0 && n == 2 ^ (bitlenAux n 32 - 1)

/-- The xHCI interval derivation of `configure_endpoint` (src/dev.rs lines
400-413): saturating decrement for High Speed and above, and for Full/Low
Speed a ceiling log2 of the millisecond interval plus 3, computed from the
highest set bit. -/
def xhci_interval (speed desc_interval : Nat) : Nat :=
  if SPEED_HIGH ≤ speed then
    desc_interval - 1
  else
    let ms := max desc_interval 1
    let log2_ceil :=
      if u32_is_power_of_two ms then u32_trailing_zeros ms
      else 32 - u32_leading_zeros ms
    log2_ceil + 3

/-! ### Endpoint configuration and transfer queueing (src/dev.rs) -/

/-- xHCI Endpoint Context as built by `EndpointContext::new`
(src/dev.rs lines 65-86). -/
structure EndpointContext where
  dw0 : Nat
  dw1 : Nat
  tr_dequeue_lo : Nat
  tr_dequeue_hi : Nat
  dw4 : Nat
deriving DecidableEq

/-- `EndpointContext::new` (src/dev.rs lines 67-85): CErr = 3, DCS = 1,
average TRB length = 8. -/
def EndpointContext.new (ep_type max_packet_size max_burst interval tr_ptr : Nat) :
    EndpointContext :=
  { dw0 := interval <<< 16
    dw1 := (3 <<< 1) ||| (ep_type <<< 3) ||| (max_burst <<< 8) ||| (max_packet_size <<< 16)
    tr_dequeue_lo := (tr_ptr % 2 ^ 32) ||| 1
    tr_dequeue_hi := tr_ptr >>> 32
    dw4 := 8 }

/-- What `configure_endpoint` computes and submits. -/
structure ConfigureResult where
  /-- Device Context Index of the endpoint. -/
  dci : Nat
  /-- Index into the 31-entry endpoint arrays (input context and ring map). -/
  ring_idx : Nat
  /-- Add-flags word written into the Input Control Context. -/
  add_flags : Nat
  /-- xHCI endpoint type written into the Endpoint Context. -/
  xhci_ep_type : Nat
  /-- xHCI interval written into the Endpoint Context. -/
  interval : Nat
  /-- The Endpoint Context stored at index `ring_idx`. -/
  ep_ctx : EndpointContext
  /-- The Configure Endpoint command TRB submitted. -/
  cmd : Trb
deriving DecidableEq

/-- `configure_endpoint` (src/dev.rs lines 367-433).  `none` models a
panic: the usize expression `dci - 1` underflows when `dci = 0`, and the
31-entry endpoint array access is out of bounds when `ring_idx ≥ 31`. -/
def configure_endpoint (speed : Nat) (ep : EndpointDesc)
    (ring_phys slot_id input_ctx_phys : Nat) : Option ConfigureResult :=
  let ep_num := ep.number
  let is_in := ep.is_in
  let ep_type := ep.transfer_type
  let dci := ep_num * 2 + if is_in then 1 else 0
  if dci = 0 then none
  else
    let ring_idx := dci - 1
    if ring_idx < 31 then
      let xhci_ep_type : Nat :=
        match ep_type, is_in with
        | 0, _ => 4
        | 1, false => 1
        | 1, true => 5
        | 2, false => 2
        | 2, true => 6
        | 3, false => 3
        | 3, true => 7
        | _, _ => 4
      let interval := xhci_interval speed ep.interval
      some { dci := dci, ring_idx := ring_idx
             add_flags := (1 <<< dci) ||| 1
             xhci_ep_type := xhci_ep_type, interval := interval
             ep_ctx := EndpointContext.new xhci_ep_type ep.max_packet_size 0 interval ring_phys
             cmd := { param := input_ctx_phys, status := 0
                      control := (trb_type.CONFIGURE_ENDPOINT <<< 10) ||| (slot_id <<< 24) } }
    else none

/-- `queue_transfer` (src/dev.rs lines 436-462).  The outer `none` models a
panic (usize underflow in `dci - 1` or an out-of-bounds index into the
31-entry ring array); the inner value carries the updated ring array, the
enqueued Normal TRB and the doorbell write `(slot, target)`. -/
def queue_transfer (ep_rings : List (Option Ring)) (slot_id ep_num : Nat)
    (is_in : Bool) (buf_phys len : Nat) :
    Option (Except UsbError (List (Option Ring) × Trb × Nat × Nat)) :=
  let dci := ep_num * 2 + if is_in then 1 else 0
  if dci = 0 then none
  else
    let ring_idx := dci - 1
    match ep_rings.get? ring_idx with
    | none => none
    | some none => some (Except.error UsbError.InvEndpoint)
    | some (some ring) =>
      let trb : Trb :=
        { param := buf_phys, status := len
          control := (trb_type.NORMAL <<< 10) ||| (1 <<< 5) }
      let ring2 := ring.enqueue trb
      some (Except.ok (ep_rings.set ring_idx (some ring2), trb, slot_id, dci % 256))

/-! ### Controller state: DCBAA (src/xhci.rs) -/

/-- The controller state visible to `set_device_context`: the DCBAA is
allocated with `(max_slots + 1) * 8` bytes, i.e. `max_slots + 1` 64-bit
entries (src/xhci.rs line 72). -/
structure XhciCtrl where
  max_slots : Nat
  max_ports : Nat
  db_offset : Nat
  dcbaa : List Nat
deriving DecidableEq

/-- `set_device_context` (src/xhci.rs lines 333-340): an unchecked volatile
write of `phys` into DCBAA entry `slot`; `none` models the out-of-bounds
write when `slot` exceeds the array. -/
def set_device_context (st : XhciCtrl) (slot phys : Nat) : Option XhciCtrl :=
  if slot < st.dcbaa.length then
    some { st with dcbaa := st.dcbaa.set slot phys }
  else none

/-! ### MMIO traces for `reset_port` and `init` (src/xhci.rs) -/

/-- One volatile MMIO access, with its byte offset from the MMIO base. -/
inductive MmioEvent where
  | read (offset : Nat) (value : Nat)
  | write (offset : Nat) (value : Nat)
deriving DecidableEq

/-- Whether an MMIO event is a write. -/
def MmioEvent.isWrite : MmioEvent → Bool
  | .read _ _ => false
  | .write _ _ => true

/-- The offset an MMIO event touches. -/
def MmioEvent.offset : MmioEvent → Nat
  | .read o _ => o
  | .write o _ => o

/-- `reset_port` (src/xhci.rs lines 297-319): read PORTSC, write back
`(PORTSC & PP) | PR`, spin until PR reads 0, then read PORTSC again and
write it back with PRC OR'd in.  `reads n` is the value of the n-th PORTSC
read; the result is the full MMIO trace, or `none` when the spin loop is
not observed to exit within the fuel. -/
def reset_port (cap_length port : Nat) (reads : Nat → Nat) (fuel : Nat) :
    Option (List MmioEvent) :=
  let off := port_reg_base cap_length port
  let r0 := reads 0
  match pollUntil reads (fun r => (r &&& PORTSC_PR) == 0) 1 fuel with
  | none => none
  | some k =>
    let rf := reads (k + 1)
    some ([MmioEvent.read off r0,
           MmioEvent.write off ((r0 &&& PORTSC_PP) ||| PORTSC_PR)]
      ++ (List.range' 1 k).map (fun j => MmioEvent.read off (reads j))
      ++ [MmioEvent.read off rf, MmioEvent.write off (rf ||| PORTSC_PRC)])

/-- The registers `XhciCtrl::init` writes (src/xhci.rs lines 129-176). -/
inductive XReg where
  | usbcmd
  | config
  | dcbaap
  | crcr
  | erstsz
  | erstba
  | erdp
deriving DecidableEq

/-- Value left in a register by a write trace: the last write to it. -/
def lastVal (tr : List (XReg × Nat)) (r : XReg) : Option Nat :=
  (tr.reverse.find? (fun p => p.1 == r)).map Prod.snd

/-- `XhciCtrl::init` (src/xhci.rs lines 129-176).  `usbcmd_reads n` and
`usbsts_reads n` are the values of the n-th USBCMD and USBSTS reads; the
result is the ordered list of register writes, or `none` when one of the
spin loops is not observed to exit within the fuel.  The stop branch writes
`usbcmd & !RUN` (`!` on u32 modelled as masking with 0xfffffffe). -/
def xinit (usbcmd_reads usbsts_reads : Nat → Nat)
    (max_slots dcbaa_phys cmd_ring_phys erst_phys erdp_phys : Nat)
    (fuel : Nat) : Option (List (XReg × Nat)) :=
  let u0 := usbcmd_reads 0
  let stop : Option (List (XReg × Nat) × Nat) :=
    if u0 &&& USBCMD_RUN ≠ 0 then
      match pollUntil usbsts_reads (fun r => (r &&& USBSTS_HCH) != 0) 0 fuel with
      | none => none
      | some k => some ([(XReg.usbcmd, u0 &&& 0xfffffffe)], k + 1)
    else some ([], 0)
  match stop with
  | none => none
  | some (ws1, sidx) =>
    match pollUntil usbcmd_reads (fun r => (r &&& USBCMD_HCRST) == 0) 1 fuel with
    | none => none
    | some _ =>
      match pollUntil usbsts_reads (fun r => (r &&& USBSTS_CNR) == 0) sidx fuel with
      | none => none
      | some k2 =>
        match pollUntil usbsts_reads (fun r => (r &&& USBSTS_HCH) == 0) (k2 + 1) fuel with
        | none => none
        | some _ =>
          some (ws1 ++
            [(XReg.usbcmd, USBCMD_HCRST),
             (XReg.config, max_slots),
             (XReg.dcbaap, dcbaa_phys),
             (XReg.crcr, cmd_ring_phys ||| 1),
             (XReg.erstsz, 1),
             (XReg.erstba, erst_phys),
             (XReg.erdp, erdp_phys),
             (XReg.usbcmd, USBCMD_RUN ||| USBCMD_INTE)])

/-! ## Theorems -/

/-- Characterisation of a successful busy-wait: the returned index is the
first read at or after the start whose value satisfies the predicate. -/
theorem pollUntil_spec (reads : Nat → Nat) (done : Nat → Bool) :
    ∀ fuel i k, pollUntil reads done i fuel = some k →
      i ≤ k ∧ done (reads k) = true ∧ ∀ j, i ≤ j → j < k → done (reads j) = false := by
  intro fuel
  induction fuel with
  | zero => intro i k h; simp [pollUntil] at h
  | succ fuel ih =>
    intro i k h
    rw [pollUntil] at h
    by_cases hd : done (reads i)
    · rw [if_pos hd] at h
      cases h
      exact ⟨Nat.le_refl i, hd, fun j hij hjk => absurd hij (by omega)⟩
    · rw [if_neg hd] at h
      obtain ⟨h1, h2, h3⟩ := ih (i + 1) k h
      refine ⟨by omega, h2, fun j hij hjk => ?_⟩
      rcases Nat.eq_or_lt_of_le hij with heq | hlt
      · subst heq; simpa using hd
      · exact h3 j (by omega) hjk

/-- C10: `set_device_context(slot, phys)` writes `phys` into DCBAA entry
`slot` with no bounds check; with the DCBAA allocated at `max_slots + 1`
entries the write stays inside the array exactly under the precondition
`slot ≤ max_slots`, and under that precondition only DCBAA entry `slot`
changes: every other DCBAA entry and every other controller field is
untouched. -/
theorem set_device_context_spec (st : XhciCtrl) (slot phys : Nat)
    (hlen : st.dcbaa.length = st.max_slots + 1) :
    ((set_device_context st slot phys).isSome ↔ slot ≤ st.max_slots) ∧
    (slot ≤ st.max_slots →
      ∃ st2, set_device_context st slot phys = some st2 ∧
        st2.max_slots = st.max_slots ∧
        st2.max_ports = st.max_ports ∧
        st2.db_offset = st.db_offset ∧
        st2.dcbaa.length = st.dcbaa.length ∧
        st2.dcbaa[slot]? = some phys ∧
        ∀ j, j ≠ slot → st2.dcbaa[j]? = st.dcbaa[j]?) := by
  have hlt : slot < st.dcbaa.length ↔ slot ≤ st.max_slots := by omega
  constructor
  · rw [set_device_context]
    by_cases h : slot < st.dcbaa.length
    · simp [h, hlt.mp h]
    · simp [h]; omega
  · intro hle
    have h : slot < st.dcbaa.length := hlt.mpr hle
    refine ⟨{ st with dcbaa := st.dcbaa.set slot phys }, ?_, rfl, rfl, rfl, by simp, ?_, ?_⟩
    · rw [set_device_context, if_pos h]
    · exact List.getElem?_set_self h
    · intro j hj
      exact List.getElem?_set_ne (Ne.symm hj)

/-- Witness for C10 on a controller with `max_slots = 2` and a three-entry
DCBAA: writing slot 1 succeeds, stores the pointer at entry 1 and leaves
entry 0 and the scalar fields unchanged. -/
theorem set_device_context_witness :
    ∃ st2, set_device_context ⟨2, 1, 0, [0, 0, 0]⟩ 1 0x99 = some st2 ∧
      st2.dcbaa[1]? = some 0x99 ∧ st2.dcbaa[0]? = some 0 ∧ st2.max_slots = 2 := by
  obtain ⟨-, h⟩ := set_device_context_spec ⟨2, 1, 0, [0, 0, 0]⟩ 1 0x99 (by decide)
  obtain ⟨st2, he, hms, -, -, -, hget, hother⟩ := h (by decide)
  exact ⟨st2, he, hget, (hother 0 (by decide)).trans (by decide), hms⟩

/-- `queue_transfer` avoids the panics (index underflow, out-of-bounds ring
array access) exactly when the DCI is nonzero and `dci - 1` is inside the
ring array. -/
theorem queue_transfer_isSome (ep_rings : List (Option Ring))
    (slot_id ep_num : Nat) (is_in : Bool) (buf_phys len : Nat) :
    (queue_transfer ep_rings slot_id ep_num is_in buf_phys len).isSome ↔
      (ep_num * 2 + (if is_in then 1 else 0) ≠ 0 ∧
       ep_num * 2 + (if is_in then 1 else 0) - 1 < ep_rings.length) := by
  simp only [queue_transfer]
  by_cases h0 : ep_num * 2 + (if is_in then 1 else 0) = 0
  · simp [h0]
  · rw [if_neg h0]
    rcases hg : ep_rings.get? (ep_num * 2 + (if is_in then 1 else 0) - 1) with - | x
    · rw [List.get?_eq_getElem?, List.getElem?_eq_none_iff] at hg
      simp [h0]
      omega
    · rw [List.get?_eq_getElem?] at hg
      have hlt : ep_num * 2 + (if is_in then 1 else 0) - 1 < ep_rings.length := by
        rcases List.getElem?_eq_some_iff.mp hg with ⟨h, -⟩
        exact h
      rcases x with - | r <;> simp [h0, hlt]

/-- `configure_endpoint` avoids the panics (index underflow in `dci - 1`,
out-of-bounds write into the 31-entry endpoint context array) exactly when
the DCI is nonzero and `dci - 1 < 31`. -/
theorem configure_endpoint_isSome (speed : Nat) (ep : EndpointDesc)
    (ring_phys slot_id icp : Nat) :
    (configure_endpoint speed ep ring_phys slot_id icp).isSome ↔
      (ep.number * 2 + (if ep.is_in then 1 else 0) ≠ 0 ∧
       ep.number * 2 + (if ep.is_in then 1 else 0) - 1 < 31) := by
  simp only [configure_endpoint]
  by_cases h0 : ep.number * 2 + (if ep.is_in then 1 else 0) = 0
  · simp [h0]
  · rw [if_neg h0]
    by_cases h1 : ep.number * 2 + (if ep.is_in then 1 else 0) - 1 < 31
    · simp [h0, h1]
    · simp [h0, h1]

/-- C9: both `queue_transfer` and `configure_endpoint` index 31-entry
endpoint arrays at `2·ep_num + (1 if IN else 0) - 1` with no range check;
the access is in bounds (no usize underflow for EP0 OUT, no out-of-range
index for `ep_num ≥ 16`) exactly when `1 ≤ ep_num ≤ 15`, or `ep_num = 0`
with direction IN. -/
theorem ep_index_bounds (ep_rings : List (Option Ring)) (hlen : ep_rings.length = 31)
    (slot_id buf_phys len speed ring_phys icp : Nat) (n : Nat) (d : Bool)
    (ep : EndpointDesc) :
    ((queue_transfer ep_rings slot_id n d buf_phys len).isSome ↔
      ((1 ≤ n ∧ n ≤ 15) ∨ (n = 0 ∧ d = true))) ∧
    ((configure_endpoint speed ep ring_phys slot_id icp).isSome ↔
      ((1 ≤ ep.number ∧ ep.number ≤ 15) ∨ (ep.number = 0 ∧ ep.is_in = true))) := by
  constructor
  · rw [queue_transfer_isSome, hlen]
    rcases d with - | - <;> simp <;> omega
  · rw [configure_endpoint_isSome]
    have hle : ep.number ≤ 15 := Nat.and_le_right
    cases hin : ep.is_in <;> simp <;> omega

/-- Witness for C9: with a full 31-entry ring array, EP3 IN is accepted by
both operations while EP0 OUT is rejected (the index underflows). -/
theorem ep_index_bounds_witness :
    ((queue_transfer (List.replicate 31 (some ⟨[], 0, true⟩)) 1 3 true 0 0).isSome ↔
      ((1 ≤ 3 ∧ 3 ≤ 15) ∨ (3 = 0 ∧ true = true))) ∧
    ¬(queue_transfer (List.replicate 31 (some ⟨[], 0, true⟩)) 1 0 false 0 0).isSome := by
  have h1 := ep_index_bounds (List.replicate 31 (some ⟨[], 0, true⟩)) (by simp)
    1 0 0 0 0 0 3 true ⟨7, 5, 0x83, 2, 64, 0⟩
  have h2 := ep_index_bounds (List.replicate 31 (some ⟨[], 0, true⟩)) (by simp)
    1 0 0 0 0 0 0 false ⟨7, 5, 0x83, 2, 64, 0⟩
  refine ⟨h1.1, ?_⟩
  rw [h2.1]
  simp

/-- C5: for endpoint number `n ∈ [1,15]` and direction `d`, both
`configure_endpoint` and `queue_transfer` derive DCI = 2·n + d, the mapping
is injective on that range, both address slot `DCI - 1` of the 31-entry
endpoint array, and `queue_transfer` rings the device doorbell with
target = DCI. -/
theorem dci_mapping (n : Nat) (d : Bool) (hn1 : 1 ≤ n) (hn2 : n ≤ 15)
    (ep : EndpointDesc) (hnum : ep.number = n) (hin : ep.is_in = d)
    (speed ring_phys slot_id icp buf_phys len : Nat)
    (ep_rings : List (Option Ring)) (r : Ring)
    (hr : ep_rings.get? (2 * n + (if d then 1 else 0) - 1) = some (some r)) :
    (∃ cres, configure_endpoint speed ep ring_phys slot_id icp = some cres ∧
      cres.dci = 2 * n + (if d then 1 else 0) ∧
      cres.ring_idx = 2 * n + (if d then 1 else 0) - 1) ∧
    queue_transfer ep_rings slot_id n d buf_phys len =
      some (Except.ok
        (ep_rings.set (2 * n + (if d then 1 else 0) - 1)
          (some (r.enqueue
            { param := buf_phys, status := len
              control := (trb_type.NORMAL <<< 10) ||| (1 <<< 5) })),
         { param := buf_phys, status := len
           control := (trb_type.NORMAL <<< 10) ||| (1 <<< 5) },
         slot_id, 2 * n + (if d then 1 else 0))) ∧
    (∀ n1 n2 : Nat, ∀ d1 d2 : Bool, 1 ≤ n1 → n1 ≤ 15 → 1 ≤ n2 → n2 ≤ 15 →
      2 * n1 + (if d1 then 1 else 0) = 2 * n2 + (if d2 then 1 else 0) →
      n1 = n2 ∧ d1 = d2) := by
  have h0 : ¬(n * 2 + (if d then 1 else 0) = 0) := by cases d <;> simp <;> omega
  have h1 : n * 2 + (if d then 1 else 0) - 1 < 31 := by cases d <;> simp <;> omega
  have hcomm : n * 2 + (if d then 1 else 0) = 2 * n + (if d then 1 else 0) := by
    rw [Nat.mul_comm]
  have h256 : (n * 2 + (if d then 1 else 0)) % 256 = n * 2 + (if d then 1 else 0) := by
    apply Nat.mod_eq_of_lt
    cases d <;> simp <;> omega
  refine ⟨?_, ?_, ?_⟩
  · rcases hcfg : configure_endpoint speed ep ring_phys slot_id icp with - | cres
    · have hs := configure_endpoint_isSome speed ep ring_phys slot_id icp
      rw [hcfg, hnum, hin] at hs
      simp at hs
      exact absurd (hs (by omega)) (by omega)
    · refine ⟨cres, rfl, ?_⟩
      simp only [configure_endpoint, hnum, hin] at hcfg
      rw [if_neg h0, if_pos h1] at hcfg
      injection hcfg with hcfg
      subst hcfg
      exact ⟨hcomm, congrArg (fun x => x - 1) hcomm⟩
  · have hr2 : ep_rings.get? (n * 2 + (if d then 1 else 0) - 1) = some (some r) := by
      rw [hcomm]; exact hr
    simp only [queue_transfer]
    rw [if_neg h0, hr2]
    rw [h256, hcomm]
  · intro n1 n2 d1 d2 _ _ _ _ heq
    cases d1 <;> cases d2 <;> simp at heq ⊢ <;> omega

/-- Witness for C5 at EP1 IN (address 0x81): DCI = 3, ring index 2, and the
queued Normal TRB lands at index 2 with doorbell target 3. -/
theorem dci_mapping_witness :
    (∃ cres, configure_endpoint 3 ⟨7, 5, 0x81, 3, 8, 10⟩ 0x2000 1 0x3000 = some cres ∧
      cres.dci = 2 * 1 + (if true then 1 else 0) ∧
      cres.ring_idx = 2 * 1 + (if true then 1 else 0) - 1) ∧
    queue_transfer (List.replicate 31 (some ⟨[], 0, true⟩)) 1 1 true 0x4000 8 =
      some (Except.ok
        ((List.replicate 31 (some (⟨[], 0, true⟩ : Ring))).set
          (2 * 1 + (if true then 1 else 0) - 1)
          (some (Ring.enqueue ⟨[], 0, true⟩
            { param := 0x4000, status := 8
              control := (trb_type.NORMAL <<< 10) ||| (1 <<< 5) })),
         { param := 0x4000, status := 8
           control := (trb_type.NORMAL <<< 10) ||| (1 <<< 5) },
         1, 2 * 1 + (if true then 1 else 0))) := by
  have h := dci_mapping 1 true (by decide) (by decide) ⟨7, 5, 0x81, 3, 8, 10⟩
    (by decide) (by decide) 3 0x2000 1 0x3000 0x4000 8
    (List.replicate 31 (some ⟨[], 0, true⟩)) ⟨[], 0, true⟩ (by decide)
  exact ⟨h.1, h.2.1⟩

/-- Whatever the completion outcome, a call that returns enqueued exactly
the TRBs assembled by `control_trbs` on the EP0 ring. -/
theorem control_transfer_emitted (slot buf_phys : Nat) (ring0 : Ring)
    (setup : SetupPacket) (data : Option (List Nat)) (delivered : List Nat)
    (events : List Trb) (res : CtResult)
    (h : control_transfer slot ring0 setup data true buf_phys delivered events = some res) :
    res.emitted = control_trbs setup ((data.map List.length).getD 0) buf_phys := by
  simp only [control_transfer] at h
  rw [if_neg (by simp)] at h
  rcases hev : findTransferEvent slot events with - | evt
  · rw [hev] at h
    exact Option.noConfusion h
  · simp only [hev] at h
    by_cases hc1 : evt.completion_code = completion.SUCCESS ∨
        evt.completion_code = completion.SHORT_PACKET
    · rw [if_pos hc1] at h
      cases h
      rfl
    · rw [if_neg hc1] at h
      by_cases hc2 : evt.completion_code = completion.STALL_ERROR
      · rw [if_pos hc2] at h
        cases h
        rfl
      · rw [if_neg hc2] at h
        cases h
        rfl

/-- Projection of the TRB type field from a literal TRB. -/
theorem trb_type_mk (p st c : Nat) :
    Trb.trb_type { param := p, status := st, control := c } = (c >>> 10) &&& 0x3f := rfl

/-- Projection of the TRT field from a literal TRB. -/
theorem trt_mk (p st c : Nat) :
    Trb.trt { param := p, status := st, control := c } = (c >>> 16) &&& 3 := rfl

/-- Projection of the DIR bit from a literal TRB. -/
theorem dir_bit_mk (p st c : Nat) :
    Trb.dir_bit { param := p, status := st, control := c } = (c >>> 16) &&& 1 := rfl

/-- C1 (amended): the TRB group a call enqueues on the EP0 ring is driven
by the presence of a data buffer, with the TRT and DIR fields additionally
gated on `wLength > 0`: with no data buffer, exactly two TRBs (Setup with
TRT = 0, Status with DIR = 1); with an IN data buffer and `wLength > 0`,
exactly three TRBs (Setup TRT = 3, Data DIR = 1, Status DIR = 0); with an
OUT data buffer and `wLength > 0`, three TRBs (Setup TRT = 2, Data DIR = 0,
Status DIR = 1). -/
theorem control_transfer_trb_emission (slot buf_phys : Nat) (ring0 : Ring)
    (setup : SetupPacket) (data : Option (List Nat)) (delivered : List Nat)
    (events : List Trb) (res : CtResult)
    (h : control_transfer slot ring0 setup data true buf_phys delivered events = some res) :
    ((data.map List.length).getD 0 = 0 →
      ∃ s t, res.emitted = [s, t] ∧ s.trb_type = trb_type.SETUP ∧ s.trt = 0 ∧
        t.trb_type = trb_type.STATUS ∧ t.dir_bit = 1) ∧
    (0 < (data.map List.length).getD 0 → 0 < setup.length →
      setup.request_type &&& 0x80 ≠ 0 →
      ∃ s u t, res.emitted = [s, u, t] ∧ s.trb_type = trb_type.SETUP ∧ s.trt = 3 ∧
        u.trb_type = trb_type.DATA ∧ u.dir_bit = 1 ∧
        t.trb_type = trb_type.STATUS ∧ t.dir_bit = 0) ∧
    (0 < (data.map List.length).getD 0 → 0 < setup.length →
      setup.request_type &&& 0x80 = 0 →
      ∃ s u t, res.emitted = [s, u, t] ∧ s.trb_type = trb_type.SETUP ∧ s.trt = 2 ∧
        u.trb_type = trb_type.DATA ∧ u.dir_bit = 0 ∧
        t.trb_type = trb_type.STATUS ∧ t.dir_bit = 1) := by
  have hem := control_transfer_emitted slot buf_phys ring0 setup data delivered events res h
  refine ⟨?_, ?_, ?_⟩
  · intro hdl
    have hct : control_trbs setup ((data.map List.length).getD 0) buf_phys =
        [{ param := setup.as_u64, status := 8
           control := trb_type.SETUP <<< 10 ||| 1 <<< 6 },
         { param := 0, status := 0
           control := trb_type.STATUS <<< 10 ||| 1 <<< 16 ||| 1 <<< 5 }] := by
      rw [hdl]
      simp [control_trbs]
    rw [hem, hct]
    exact ⟨_, _, rfl, by rw [trb_type_mk]; decide, by rw [trt_mk]; decide, by rw [trb_type_mk]; decide, by rw [dir_bit_mk]; decide⟩
  · intro hdl hlen hdir
    have hb : ((setup.request_type &&& 0x80) != 0) = true := by
      simpa [bne_iff_ne] using hdir
    have hct : control_trbs setup ((data.map List.length).getD 0) buf_phys =
        [{ param := setup.as_u64, status := 8
           control := trb_type.SETUP <<< 10 ||| 1 <<< 6 ||| 3 <<< 16 },
         { param := buf_phys, status := setup.length
           control := trb_type.DATA <<< 10 ||| 1 <<< 16 ||| 1 <<< 5 },
         { param := 0, status := 0
           control := trb_type.STATUS <<< 10 ||| 1 <<< 5 }] := by
      simp [control_trbs, hb, hdl, hlen]
    rw [hem, hct]
    exact ⟨_, _, _, rfl, by rw [trb_type_mk]; decide, by rw [trt_mk]; decide, by rw [trb_type_mk]; decide, by rw [dir_bit_mk]; decide, by rw [trb_type_mk]; decide, by rw [dir_bit_mk]; decide⟩
  · intro hdl hlen hdir
    have hb : ((setup.request_type &&& 0x80) != 0) = false := by
      simp [bne_iff_ne, hdir]
    have hct : control_trbs setup ((data.map List.length).getD 0) buf_phys =
        [{ param := setup.as_u64, status := 8
           control := trb_type.SETUP <<< 10 ||| 1 <<< 6 ||| 2 <<< 16 },
         { param := buf_phys, status := setup.length
           control := trb_type.DATA <<< 10 ||| 1 <<< 5 },
         { param := 0, status := 0
           control := trb_type.STATUS <<< 10 ||| 1 <<< 16 ||| 1 <<< 5 }] := by
      simp [control_trbs, hb, hdl, hlen]
    rw [hem, hct]
    exact ⟨_, _, _, rfl, by rw [trb_type_mk]; decide, by rw [trt_mk]; decide, by rw [trb_type_mk]; decide, by rw [dir_bit_mk]; decide, by rw [trb_type_mk]; decide, by rw [dir_bit_mk]; decide⟩

/-- Counterexample to C1 as stated: a call with `wLength = 0` but a
non-empty IN data buffer emits three TRBs, not two, and its Setup TRB
carries TRT = 0 rather than the IN value 3 — the TRB count is driven by the
buffer, not by `wLength`. -/
theorem control_transfer_wlength_counterexample :
    ∃ res, control_transfer 1 ⟨List.replicate 8 ⟨0, 0, 0⟩, 0, true⟩
        { request_type := 0x80, request := 6, value := 0, index := 0, length := 0 }
        (some [0]) true 0x1000 [7]
        [{ param := 0, status := 1 <<< 24, control := 32 <<< 10 ||| 1 <<< 24 }] = some res ∧
      res.emitted.length = 3 ∧ ¬res.emitted.length = 2 ∧
      (res.emitted.headD ⟨0, 0, 0⟩).trt = 0 := by
  exact ⟨_, rfl, by decide, by decide, by decide⟩

/-- Witness for C1 at a GET_DESCRIPTOR-style IN transfer with
`wLength = 18` and an 18-byte buffer: three TRBs with Setup TRT = 3,
Data DIR = 1, Status DIR = 0. -/
theorem control_transfer_trb_emission_witness :
    ∃ res, control_transfer 1 ⟨List.replicate 8 ⟨0, 0, 0⟩, 0, true⟩
        { request_type := 0x80, request := 6, value := 0x0100, index := 0, length := 18 }
        (some (List.replicate 18 0)) true 0x1000 (List.replicate 18 7)
        [{ param := 0, status := 1 <<< 24, control := 32 <<< 10 ||| 1 <<< 24 }] = some res ∧
      ∃ s u t, res.emitted = [s, u, t] ∧ s.trb_type = trb_type.SETUP ∧ s.trt = 3 ∧
        u.trb_type = trb_type.DATA ∧ u.dir_bit = 1 ∧
        t.trb_type = trb_type.STATUS ∧ t.dir_bit = 0 := by
  have h := control_transfer_trb_emission 1 0x1000 ⟨List.replicate 8 ⟨0, 0, 0⟩, 0, true⟩
    { request_type := 0x80, request := 6, value := 0x0100, index := 0, length := 18 }
    (some (List.replicate 18 0)) (List.replicate 18 7)
    [{ param := 0, status := 1 <<< 24, control := 32 <<< 10 ||| 1 <<< 24 }] _ rfl
  exact ⟨_, rfl, h.2.1 (by decide) (by decide) (by decide)⟩

/-- C4: if the DMA data-buffer allocation inside `control_transfer` fails,
the allocation error is returned before any TRB is enqueued: no TRB is
emitted and the EP0 ring (contents, enqueue index, cycle bit) is exactly
the ring the call started with. -/
theorem control_transfer_alloc_fail (slot buf_phys : Nat) (ring0 : Ring)
    (setup : SetupPacket) (d delivered : List Nat) (events : List Trb)
    (hd : 0 < d.length) :
    ∃ res, control_transfer slot ring0 setup (some d) false buf_phys delivered events = some res ∧
      res.outcome = Except.error UsbError.OoRam ∧
      res.emitted = [] ∧ res.ring = ring0 := by
  have hcond : 0 < ((some d).map List.length).getD 0 ∧ True :=
    ⟨by simpa using hd, trivial⟩
  have he : control_transfer slot ring0 setup (some d) false buf_phys delivered events =
      some { ring := ring0, emitted := [], outcome := Except.error UsbError.OoRam
             buf := some d, allocated := false, freed := false } := by
    simp only [control_transfer]
    rw [if_pos hcond]
  exact ⟨_, he, rfl, rfl, rfl⟩

/-- Witness for C4: a failing allocation for a 4-byte OUT transfer returns
the out-of-memory error with an empty emission and the ring untouched. -/
theorem control_transfer_alloc_fail_witness :
    ∃ res, control_transfer 1 ⟨List.replicate 8 ⟨0, 0, 0⟩, 0, true⟩
        { request_type := 0x00, request := 9, value := 1, index := 0, length := 4 }
        (some [1, 2, 3, 4]) false 0x1000 [] [] = some res ∧
      res.outcome = Except.error UsbError.OoRam ∧
      res.emitted = [] ∧ res.ring = ⟨List.replicate 8 ⟨0, 0, 0⟩, 0, true⟩ :=
  control_transfer_alloc_fail 1 0x1000 ⟨List.replicate 8 ⟨0, 0, 0⟩, 0, true⟩
    { request_type := 0x00, request := 9, value := 1, index := 0, length := 4 }
    [1, 2, 3, 4] [] [] (by decide)

/-- C3: a Transfer Event with completion code 6 makes `control_transfer`
return the distinct error `Stall` (never `XferFail 6`), and any allocated
DMA data buffer is freed before returning; any other non-success,
non-short-packet code `c` yields `XferFail c`, likewise freeing the
buffer. -/
theorem control_transfer_stall_and_fail (slot buf_phys : Nat) (ring0 : Ring)
    (setup : SetupPacket) (data : Option (List Nat)) (delivered : List Nat)
    (events : List Trb) (evt : Trb)
    (hfind : findTransferEvent slot events = some evt) :
    (evt.completion_code = completion.STALL_ERROR →
      ∃ res, control_transfer slot ring0 setup data true buf_phys delivered events = some res ∧
        res.outcome = Except.error UsbError.Stall ∧
        (∀ c, res.outcome ≠ Except.error (UsbError.XferFail c)) ∧
        res.freed = res.allocated) ∧
    (evt.completion_code ≠ completion.SUCCESS →
      evt.completion_code ≠ completion.SHORT_PACKET →
      evt.completion_code ≠ completion.STALL_ERROR →
      ∃ res, control_transfer slot ring0 setup data true buf_phys delivered events = some res ∧
        res.outcome = Except.error (UsbError.XferFail evt.completion_code) ∧
        res.freed = res.allocated) := by
  constructor
  · intro h6
    have hno : ¬(evt.completion_code = completion.SUCCESS ∨
        evt.completion_code = completion.SHORT_PACKET) := by
      rw [h6]; decide
    simp only [control_transfer]
    rw [if_neg (by simp)]
    simp only [hfind]
    rw [if_neg hno, if_pos h6]
    refine ⟨_, rfl, rfl, ?_, rfl⟩
    intro c hc
    simp at hc
  · intro h1 h13 h6
    simp only [control_transfer]
    rw [if_neg (by simp)]
    simp only [hfind]
    rw [if_neg (not_or.mpr ⟨h1, h13⟩), if_neg h6]
    exact ⟨_, rfl, rfl, rfl⟩

/-- Witness for C3: a mock stall completion (code 6) on a 4-byte IN
transfer surfaces as `Stall` with the allocated buffer freed. -/
theorem control_transfer_stall_witness :
    ∃ res, control_transfer 1 ⟨List.replicate 8 ⟨0, 0, 0⟩, 0, true⟩
        { request_type := 0x80, request := 6, value := 0, index := 0, length := 4 }
        (some [0, 0, 0, 0]) true 0x1000 [1, 2, 3, 4]
        [{ param := 0, status := 6 <<< 24, control := 32 <<< 10 ||| 1 <<< 24 }] = some res ∧
      res.outcome = Except.error UsbError.Stall ∧ res.freed = res.allocated := by
  obtain ⟨res, he, hout, -, hfr⟩ :=
    (control_transfer_stall_and_fail 1 0x1000 ⟨List.replicate 8 ⟨0, 0, 0⟩, 0, true⟩
      { request_type := 0x80, request := 6, value := 0, index := 0, length := 4 }
      (some [0, 0, 0, 0]) [1, 2, 3, 4]
      [{ param := 0, status := 6 <<< 24, control := 32 <<< 10 ||| 1 <<< 24 }]
      { param := 0, status := 6 <<< 24, control := 32 <<< 10 ||| 1 <<< 24 }
      (by decide)).1 (by decide)
  exact ⟨res, he, hout, hfr⟩

/-- A successful or short-packet completion of an IN transfer with a
non-empty buffer: explicit form of the result record. -/
theorem control_transfer_success_in (slot buf_phys : Nat) (ring0 : Ring)
    (setup : SetupPacket) (d delivered : List Nat) (events : List Trb) (evt : Trb)
    (hdir : ((setup.request_type &&& 0x80) != 0) = true)
    (hdl : 0 < d.length)
    (hfind : findTransferEvent slot events = some evt)
    (hcode : evt.completion_code = completion.SUCCESS ∨
      evt.completion_code = completion.SHORT_PACKET) :
    control_transfer slot ring0 setup (some d) true buf_phys delivered events =
      some { ring := (control_trbs setup d.length buf_phys).foldl Ring.enqueue ring0
             emitted := control_trbs setup d.length buf_phys
             outcome := Except.ok ((setup.length + 2 ^ 64 - evt.transfer_length) % 2 ^ 64)
             buf := some (delivered.take
                 (min ((setup.length + 2 ^ 64 - evt.transfer_length) % 2 ^ 64) d.length) ++
               d.drop (min ((setup.length + 2 ^ 64 - evt.transfer_length) % 2 ^ 64) d.length))
             allocated := true, freed := true } := by
  simp only [control_transfer, Option.map_some', Option.getD_some]
  rw [if_neg (by simp)]
  simp only [hfind]
  rw [if_pos hcode, hdir]
  simp only [if_true]
  rw [if_pos hdl, if_neg (by simp [hdir]), decide_eq_true hdl]

/-- C2: for an IN `control_transfer` whose buffer length equals `wLength`
(`= L`), when the matching Transfer Event completes with Success or Short
Packet and residual `r ≤ L`, the call returns `Ok (L - r)` and the caller's
buffer receives exactly the first `L - r` bytes the device delivered into
the DMA buffer (the copy length `min (L - r) L` is also bounded by the
caller's buffer length). -/
theorem control_transfer_short_packet (slot r buf_phys : Nat) (ring0 : Ring)
    (setup : SetupPacket) (d delivered : List Nat) (events : List Trb) (evt : Trb)
    (hdir : setup.request_type &&& 0x80 ≠ 0)
    (hd : d.length = setup.length) (hdel : delivered.length = setup.length)
    (hL16 : setup.length < 2 ^ 16) (hLpos : 0 < setup.length)
    (hfind : findTransferEvent slot events = some evt)
    (hcode : evt.completion_code = completion.SUCCESS ∨
      evt.completion_code = completion.SHORT_PACKET)
    (hres : evt.transfer_length = r) (hr : r ≤ setup.length) :
    ∃ res, control_transfer slot ring0 setup (some d) true buf_phys delivered events = some res ∧
      res.outcome = Except.ok (setup.length - r) ∧
      res.buf = some (delivered.take (setup.length - r) ++ d.drop (setup.length - r)) := by
  have hb : ((setup.request_type &&& 0x80) != 0) = true := by
    simpa [bne_iff_ne] using hdir
  have hdl : 0 < d.length := by omega
  have he := control_transfer_success_in slot buf_phys ring0 setup d delivered events evt
    hb hdl hfind hcode
  have htr : (setup.length + 2 ^ 64 - evt.transfer_length) % 2 ^ 64 = setup.length - r := by
    rw [hres]; omega
  have hmin : min (setup.length - r) d.length = setup.length - r := by omega
  refine ⟨_, he, ?_, ?_⟩
  · show Except.ok ((setup.length + 2 ^ 64 - evt.transfer_length) % 2 ^ 64) =
      Except.ok (setup.length - r)
    rw [htr]
  · show some (delivered.take
        (min ((setup.length + 2 ^ 64 - evt.transfer_length) % 2 ^ 64) d.length) ++
      d.drop (min ((setup.length + 2 ^ 64 - evt.transfer_length) % 2 ^ 64) d.length)) =
      some (delivered.take (setup.length - r) ++ d.drop (setup.length - r))
    rw [htr, hmin]

/-- Witness for C2: a short-packet completion with residual 1 on a 4-byte
IN transfer returns 3 and copies exactly the first 3 delivered bytes. -/
theorem control_transfer_short_packet_witness :
    ∃ res, control_transfer 1 ⟨List.replicate 8 ⟨0, 0, 0⟩, 0, true⟩
        { request_type := 0x80, request := 6, value := 0, index := 0, length := 4 }
        (some [9, 9, 9, 9]) true 0x1000 [10, 11, 12, 13]
        [{ param := 0, status := 1 ||| 13 <<< 24, control := 32 <<< 10 ||| 1 <<< 24 }] =
          some res ∧
      res.outcome = Except.ok (4 - 1) ∧
      res.buf = some (List.take (4 - 1) [10, 11, 12, 13] ++ List.drop (4 - 1) [9, 9, 9, 9]) :=
  control_transfer_short_packet 1 1 0x1000 ⟨List.replicate 8 ⟨0, 0, 0⟩, 0, true⟩
    { request_type := 0x80, request := 6, value := 0, index := 0, length := 4 }
    [9, 9, 9, 9] [10, 11, 12, 13]
    [{ param := 0, status := 1 ||| 13 <<< 24, control := 32 <<< 10 ||| 1 <<< 24 }]
    { param := 0, status := 1 ||| 13 <<< 24, control := 32 <<< 10 ||| 1 <<< 24 }
    (by decide) (by decide) (by decide) (by decide) (by decide) (by decide)
    (by decide) (by decide) (by decide)

/-- `bitlenAux` on zero is zero. -/
theorem bitlenAux_zero (fuel : Nat) : bitlenAux 0 fuel = 0 := by
  cases fuel <;> simp [bitlenAux]

/-- `bitlenAux` never exceeds its fuel. -/
theorem bitlenAux_le : ∀ fuel n, bitlenAux n fuel ≤ fuel := by
  intro fuel
  induction fuel with
  | zero => intro n; simp [bitlenAux]
  | succ fuel ih =>
    intro n
    rw [bitlenAux]
    by_cases hz : n = 0
    · simp [hz]
    · rw [if_neg hz]
      exact Nat.succ_le_succ (ih (n / 2))

/-- With enough fuel, `bitlenAux` computes the binary length: the result
`B` is positive and satisfies `2 ^ (B - 1) ≤ n < 2 ^ B`. -/
theorem bitlenAux_spec : ∀ fuel n, 0 < n → n < 2 ^ fuel →
    0 < bitlenAux n fuel ∧ 2 ^ (bitlenAux n fuel - 1) ≤ n ∧ n < 2 ^ bitlenAux n fuel := by
  intro fuel
  induction fuel with
  | zero =>
    intro n h1 h2
    simp at h2
    omega
  | succ fuel ih =>
    intro n h1 h2
    rw [bitlenAux, if_neg (by omega)]
    by_cases hz : n / 2 = 0
    · have hn1 : n = 1 := by omega
      subst hn1
      norm_num [bitlenAux_zero]
    · have hstep : 2 ^ (fuel + 1) = 2 ^ fuel * 2 := pow_succ 2 fuel
      obtain ⟨hp, hle, hlt⟩ := ih (n / 2) (by omega) (by omega)
      set B := bitlenAux (n / 2) fuel with hB
      have e1 : 2 ^ B = 2 ^ (B - 1) * 2 := by
        rw [← pow_succ]
        congr 1
        omega
      have e2 : 2 ^ (B + 1) = 2 ^ B * 2 := pow_succ 2 B
      refine ⟨by omega, ?_, ?_⟩
      · simpa [e1] using by omega
      · omega

/-- `tzAux` on a power of two below the fuel returns the exponent. -/
theorem tzAux_pow : ∀ fuel k, k < fuel → tzAux (2 ^ k) fuel = k := by
  intro fuel
  induction fuel with
  | zero => omega
  | succ fuel ih =>
    intro k hk
    cases k with
    | zero => simp [tzAux]
    | succ k =>
      have hpow : 2 ^ (k + 1) = 2 ^ k * 2 := pow_succ 2 k
      rw [tzAux, if_neg (by omega)]
      have hdiv : 2 ^ (k + 1) / 2 = 2 ^ k := by omega
      rw [hdiv, ih k (by omega)]

/-- `u32_is_power_of_two` agrees with being a power of two on 32-bit
values. -/
theorem u32_is_power_of_two_iff (n : Nat) (h1 : 0 < n) (h2 : n < 2 ^ 32) :
    u32_is_power_of_two n = true ↔ ∃ k, n = 2 ^ k := by
  obtain ⟨hp, hle, hlt⟩ := bitlenAux_spec 32 n h1 h2
  rw [u32_is_power_of_two]
  simp only [Bool.and_eq_true, bne_iff_ne, beq_iff_eq, ne_eq]
  constructor
  · rintro ⟨-, hpow⟩
    exact ⟨bitlenAux n 32 - 1, hpow⟩
  · rintro ⟨k, rfl⟩
    refine ⟨by omega, ?_⟩
    have hk1 : bitlenAux (2 ^ k) 32 - 1 ≤ k :=
      (Nat.pow_le_pow_iff_right (by norm_num)).mp hle
    have hk2 : k < bitlenAux (2 ^ k) 32 :=
      (Nat.pow_lt_pow_iff_right (by norm_num)).mp hlt
    congr 1
    omega

/-- On values that are not powers of two, the ceiling log2 is the floor
log2 plus one. -/
theorem clog2_of_not_pow2 (n : Nat) (h1 : 0 < n) (hnp : ∀ k, n ≠ 2 ^ k) :
    Nat.clog 2 n = Nat.log 2 n + 1 := by
  apply le_antisymm
  · exact (Nat.le_pow_iff_clog_le (by norm_num)).mp
      (le_of_lt (Nat.lt_pow_succ_log_self (by norm_num) n))
  · by_contra hlt
    push_neg at hlt
    have hle2 : n ≤ 2 ^ Nat.log 2 n :=
      (Nat.le_pow_iff_clog_le (by norm_num)).mpr (by omega)
    have hge : 2 ^ Nat.log 2 n ≤ n := Nat.pow_log_le_self 2 (by omega)
    exact hnp (Nat.log 2 n) (by omega)

/-- The highest-set-bit computation of `configure_endpoint` equals the
ceiling base-2 logarithm on positive 32-bit values. -/
theorem fsls_log2_ceil (ms : Nat) (h1 : 0 < ms) (h2 : ms < 2 ^ 32) :
    (if u32_is_power_of_two ms then u32_trailing_zeros ms
     else 32 - u32_leading_zeros ms) = Nat.clog 2 ms := by
  by_cases hp : u32_is_power_of_two ms
  · rw [if_pos hp]
    obtain ⟨k, rfl⟩ := (u32_is_power_of_two_iff ms h1 h2).mp hp
    have hk : k < 32 := (Nat.pow_lt_pow_iff_right (by norm_num)).mp h2
    rw [u32_trailing_zeros, if_neg (by omega), tzAux_pow 32 k hk,
      Nat.clog_pow 2 k (by norm_num)]
  · rw [if_neg hp]
    have hnp : ∀ k, ms ≠ 2 ^ k := fun k hk =>
      hp ((u32_is_power_of_two_iff ms h1 h2).mpr ⟨k, hk⟩)
    obtain ⟨hBpos, hle, hlt⟩ := bitlenAux_spec 32 ms h1 h2
    have hlog : Nat.log 2 ms = bitlenAux ms 32 - 1 := by
      apply Nat.log_eq_of_pow_le_of_lt_pow hle
      have heq : bitlenAux ms 32 - 1 + 1 = bitlenAux ms 32 := by omega
      rw [heq]
      exact hlt
    have hBle : bitlenAux ms 32 ≤ 32 := bitlenAux_le 32 ms
    rw [u32_leading_zeros, clog2_of_not_pow2 ms h1 hnp, hlog]
    omega

/-- A successful `configure_endpoint` stores exactly the derived xHCI
interval. -/
theorem configure_endpoint_interval_eq (speed : Nat) (ep : EndpointDesc)
    (ring_phys slot_id icp : Nat) (res : ConfigureResult)
    (h : configure_endpoint speed ep ring_phys slot_id icp = some res) :
    res.interval = xhci_interval speed ep.interval := by
  simp only [configure_endpoint] at h
  by_cases h0 : ep.number * 2 + (if ep.is_in then 1 else 0) = 0
  · rw [if_pos h0] at h
    exact Option.noConfusion h
  · rw [if_neg h0] at h
    by_cases h1 : ep.number * 2 + (if ep.is_in then 1 else 0) - 1 < 31
    · rw [if_pos h1] at h
      cases h
      rfl
    · rw [if_neg h1] at h
      exact Option.noConfusion h

/-- C6: the xHCI interval written by `configure_endpoint` is
`max(0, descriptor_interval - 1)` for High Speed and above, and
`ceil(log2(max(1, descriptor_interval))) + 3` for Full/Low Speed. -/
theorem configure_endpoint_interval (speed : Nat) (ep : EndpointDesc)
    (ring_phys slot_id icp : Nat) (res : ConfigureResult)
    (h : configure_endpoint speed ep ring_phys slot_id icp = some res)
    (hi : ep.interval < 256) :
    (SPEED_HIGH ≤ speed → res.interval = ep.interval - 1) ∧
    (speed = SPEED_FULL ∨ speed = SPEED_LOW →
      res.interval = Nat.clog 2 (max ep.interval 1) + 3) := by
  have heq := configure_endpoint_interval_eq speed ep ring_phys slot_id icp res h
  constructor
  · intro hsp
    rw [heq, xhci_interval, if_pos hsp]
  · intro hsp
    have hlt : ¬SPEED_HIGH ≤ speed := by
      rcases hsp with rfl | rfl <;> decide
    have hcl := fsls_log2_ceil (max ep.interval 1) (by omega) (by
      have : (2 : Nat) ^ 32 = 4294967296 := by norm_num
      omega)
    rw [heq, xhci_interval, if_neg hlt]
    simp only at hcl ⊢
    omega

/-- Witness for C6 at descriptor interval 10: Full Speed yields
`ceil(log2 10) + 3 = 7`, High Speed yields `10 - 1 = 9`. -/
theorem configure_endpoint_interval_witness :
    (∃ res, configure_endpoint 1 ⟨7, 5, 0x81, 3, 8, 10⟩ 0 1 0 = some res ∧
      res.interval = Nat.clog 2 (max 10 1) + 3 ∧ res.interval = 7) ∧
    (∃ res, configure_endpoint 3 ⟨7, 5, 0x81, 3, 8, 10⟩ 0 1 0 = some res ∧
      res.interval = 10 - 1) := by
  constructor
  · have h := configure_endpoint_interval 1 ⟨7, 5, 0x81, 3, 8, 10⟩ 0 1 0 _ rfl (by decide)
    exact ⟨_, rfl, h.2 (Or.inl rfl), by decide⟩
  · have h := configure_endpoint_interval 3 ⟨7, 5, 0x81, 3, 8, 10⟩ 0 1 0 _ rfl (by decide)
    exact ⟨_, rfl, h.1 (by decide)⟩

/-- A pure-read segment of an MMIO trace contains no writes. -/
theorem filter_isWrite_map_read (off : Nat) (f : Nat → Nat) :
    ∀ l : List Nat,
      ((l.map (fun j => MmioEvent.read off (f j))).filter MmioEvent.isWrite) = [] := by
  intro l
  induction l with
  | nil => rfl
  | cons a l ih => simp [MmioEvent.isWrite, ih]

/-- C7: `reset_port(port)` touches only PORTSC at
`CAPLENGTH + 0x400 + port·0x10`: it reads PORTSC, writes back
`(PORTSC & PP) | PR`, spins on reads until PR is clear (all intermediate
reads still have PR set), reads PORTSC once more and writes it back with
PRC OR'd in; the two writes listed are the only writes, every access is at
that one offset, and the call returns successfully. -/
theorem reset_port_spec (cap_length port fuel : Nat) (reads : Nat → Nat)
    (tr : List MmioEvent)
    (h : reset_port cap_length port reads fuel = some tr) :
    ∃ k, 1 ≤ k ∧ (reads k &&& PORTSC_PR) = 0 ∧
      (∀ j, 1 ≤ j → j < k → (reads j &&& PORTSC_PR) ≠ 0) ∧
      tr = [MmioEvent.read (port_reg_base cap_length port) (reads 0),
            MmioEvent.write (port_reg_base cap_length port)
              ((reads 0 &&& PORTSC_PP) ||| PORTSC_PR)]
        ++ (List.range' 1 k).map
            (fun j => MmioEvent.read (port_reg_base cap_length port) (reads j))
        ++ [MmioEvent.read (port_reg_base cap_length port) (reads (k + 1)),
            MmioEvent.write (port_reg_base cap_length port) (reads (k + 1) ||| PORTSC_PRC)] ∧
      tr.filter MmioEvent.isWrite =
        [MmioEvent.write (port_reg_base cap_length port)
            ((reads 0 &&& PORTSC_PP) ||| PORTSC_PR),
         MmioEvent.write (port_reg_base cap_length port) (reads (k + 1) ||| PORTSC_PRC)] ∧
      ∀ e ∈ tr, e.offset = port_reg_base cap_length port := by
  simp only [reset_port] at h
  rcases hp : pollUntil reads (fun r => (r &&& PORTSC_PR) == 0) 1 fuel with - | k
  · rw [hp] at h
    exact Option.noConfusion h
  · rw [hp] at h
    injection h with h
    subst h
    obtain ⟨hk1, hkdone, hkfail⟩ := pollUntil_spec reads _ fuel 1 k hp
    refine ⟨k, hk1, by simpa using hkdone, ?_, rfl, ?_, ?_⟩
    · intro j hj1 hjk
      have := hkfail j hj1 hjk
      simpa using this
    · simp only [List.filter_append, List.filter_cons, List.filter_nil,
        filter_isWrite_map_read]
      rfl
    · intro e he
      simp only [List.mem_append, List.mem_cons, List.mem_map,
        List.not_mem_nil, or_false] at he
      rcases he with ((rfl | rfl) | ⟨j, -, rfl⟩) | (rfl | rfl) <;> rfl

/-- Witness for C7 on a port whose PR bit stays set for one poll iteration:
the trace carries exactly the two prescribed writes. -/
theorem reset_port_spec_witness :
    ∃ tr, reset_port 0x20 0 (fun n => if n = 1 then PORTSC_PR else 0) 4 = some tr ∧
      tr.filter MmioEvent.isWrite =
        [MmioEvent.write 1056 16, MmioEvent.write 1056 2097152] := by
  obtain ⟨k, hk1, hkd, hkf, htr, hfil, hoff⟩ :=
    reset_port_spec 0x20 0 4 (fun n => if n = 1 then PORTSC_PR else 0) _ rfl
  refine ⟨_, rfl, ?_⟩
  have hk2 : k = 2 := by
    rcases Nat.lt_or_ge k 2 with hlt | hge
    · have hone : k = 1 := by omega
      subst hone
      simp [PORTSC_PR] at hkd
    · rcases Nat.eq_or_lt_of_le hge with heq | hgt
      · omega
      · have := hkf 2 (by omega) hgt
        simp [PORTSC_PR] at this
  subst hk2
  simpa [PORTSC_PP, PORTSC_PR, PORTSC_PRC, port_reg_base] using hfil

/-- A prefix of earlier writes does not change the last write to a
register that the suffix itself writes. -/
theorem lastVal_append_of_isSome (ws1 L : List (XReg × Nat)) (r : XReg)
    (h : (lastVal L r).isSome) :
    lastVal (ws1 ++ L) r = lastVal L r := by
  rcases hf : L.reverse.find? (fun p => p.1 == r) with - | v
  · rw [lastVal, hf] at h
    simp at h
  · simp [lastVal, List.reverse_append, List.find?_append, hf]

/-- C8: controller initialization.  If USBCMD.RUN is set at entry, the
first write clears RUN and the code spins until a USBSTS read shows HCH
set; HCRST is then written to USBCMD and the code spins until HCRST reads 0
and until USBSTS.CNR reads 0; on return the last value written to USBCMD is
exactly `RUN | INTE`, the low 8 bits of the last value written to CONFIG
equal `max_slots`, and a USBSTS read with HCH clear has been observed. -/
theorem xinit_spec (uc us : Nat → Nat)
    (max_slots dcbaa_phys cmd_ring_phys erst_phys erdp_phys fuel : Nat)
    (tr : List (XReg × Nat)) (hms : max_slots < 256)
    (h : xinit uc us max_slots dcbaa_phys cmd_ring_phys erst_phys erdp_phys fuel = some tr) :
    (uc 0 &&& USBCMD_RUN ≠ 0 →
      tr.head? = some (XReg.usbcmd, uc 0 &&& 0xfffffffe) ∧
      ∃ k, (us k &&& USBSTS_HCH) ≠ 0 ∧ ∀ j, j < k → (us j &&& USBSTS_HCH) = 0) ∧
    ((XReg.usbcmd, USBCMD_HCRST) ∈ tr) ∧
    (∃ kc, 1 ≤ kc ∧ (uc kc &&& USBCMD_HCRST) = 0 ∧
      ∀ j, 1 ≤ j → j < kc → (uc j &&& USBCMD_HCRST) ≠ 0) ∧
    (∃ k2, (us k2 &&& USBSTS_CNR) = 0) ∧
    lastVal tr XReg.usbcmd = some (USBCMD_RUN ||| USBCMD_INTE) ∧
    (lastVal tr XReg.config).map (fun v => v &&& 0xff) = some max_slots ∧
    (∃ k3, (us k3 &&& USBSTS_HCH) = 0) := by
  have hmask : max_slots &&& 0xff = max_slots := by
    have h8 : (0xff : Nat) = 2 ^ 8 - 1 := by norm_num
    rw [h8, Nat.and_pow_two_sub_one_of_lt_two_pow (by norm_num; omega)]
  simp only [xinit] at h
  by_cases hrun : uc 0 &&& USBCMD_RUN ≠ 0
  · rw [if_pos hrun] at h
    rcases hp1 : pollUntil us (fun r => (r &&& USBSTS_HCH) != 0) 0 fuel with - | k1
    · simp only [hp1] at h
      exact Option.noConfusion h
    · simp only [hp1] at h
      rcases hp2 : pollUntil uc (fun r => (r &&& USBCMD_HCRST) == 0) 1 fuel with - | kc
      · simp only [hp2] at h
        exact Option.noConfusion h
      · simp only [hp2] at h
        rcases hp3 : pollUntil us (fun r => (r &&& USBSTS_CNR) == 0) (k1 + 1) fuel
          with - | k2
        · simp only [hp3] at h
          exact Option.noConfusion h
        · simp only [hp3] at h
          rcases hp4 : pollUntil us (fun r => (r &&& USBSTS_HCH) == 0) (k2 + 1) fuel
            with - | k3
          · simp only [hp4] at h
            exact Option.noConfusion h
          · simp only [hp4] at h
            injection h with h
            subst h
            obtain ⟨-, hd1, hf1⟩ := pollUntil_spec us _ fuel 0 k1 hp1
            obtain ⟨hc1, hd2, hf2⟩ := pollUntil_spec uc _ fuel 1 kc hp2
            obtain ⟨-, hd3, -⟩ := pollUntil_spec us _ fuel (k1 + 1) k2 hp3
            obtain ⟨-, hd4, -⟩ := pollUntil_spec us _ fuel (k2 + 1) k3 hp4
            refine ⟨fun _ => ⟨rfl, k1, by simpa using hd1,
                fun j hj => by simpa using hf1 j (Nat.zero_le j) hj⟩,
              by simp,
              ⟨kc, hc1, by simpa using hd2,
                fun j hj1 hj2 => by simpa using hf2 j hj1 hj2⟩,
              ⟨k2, by simpa using hd3⟩, ?_, ?_, ⟨k3, by simpa using hd4⟩⟩
            · rw [lastVal_append_of_isSome]
              · rfl
              · rfl
            · rw [lastVal_append_of_isSome]
              · show some (max_slots &&& 0xff) = some max_slots
                rw [hmask]
              · rfl
  · rw [if_neg hrun] at h
    rcases hp2 : pollUntil uc (fun r => (r &&& USBCMD_HCRST) == 0) 1 fuel with - | kc
    · simp only [hp2] at h
      exact Option.noConfusion h
    · simp only [hp2] at h
      rcases hp3 : pollUntil us (fun r => (r &&& USBSTS_CNR) == 0) 0 fuel with - | k2
      · simp only [hp3] at h
        exact Option.noConfusion h
      · simp only [hp3] at h
        rcases hp4 : pollUntil us (fun r => (r &&& USBSTS_HCH) == 0) (k2 + 1) fuel
          with - | k3
        · simp only [hp4] at h
          exact Option.noConfusion h
        · simp only [hp4] at h
          injection h with h
          subst h
          obtain ⟨hc1, hd2, hf2⟩ := pollUntil_spec uc _ fuel 1 kc hp2
          obtain ⟨-, hd3, -⟩ := pollUntil_spec us _ fuel 0 k2 hp3
          obtain ⟨-, hd4, -⟩ := pollUntil_spec us _ fuel (k2 + 1) k3 hp4
          refine ⟨fun hx => absurd hx hrun,
            by simp,
            ⟨kc, hc1, by simpa using hd2,
              fun j hj1 hj2 => by simpa using hf2 j hj1 hj2⟩,
            ⟨k2, by simpa using hd3⟩, ?_, ?_, ⟨k3, by simpa using hd4⟩⟩
          · rfl
          · show some (max_slots &&& 0xff) = some max_slots
            rw [hmask]

/-- Witness for C8 on a mock controller that starts running (USBCMD reads
1) and whose USBSTS reads HCH set once and then clears: the final USBCMD
write is `RUN | INTE`, CONFIG holds `max_slots = 8`, and HCRST was
written. -/
theorem xinit_spec_witness :
    ∃ tr, xinit (fun n => if n = 0 then 1 else 0) (fun n => if n = 0 then 1 else 0)
        8 0x100 0x200 0x300 0x400 4 = some tr ∧
      lastVal tr XReg.usbcmd = some (USBCMD_RUN ||| USBCMD_INTE) ∧
      (lastVal tr XReg.config).map (fun v => v &&& 0xff) = some 8 ∧
      (XReg.usbcmd, USBCMD_HCRST) ∈ tr := by
  obtain ⟨h1, h2, h3, h4, h5, h6, h7⟩ :=
    xinit_spec (fun n => if n = 0 then 1 else 0) (fun n => if n = 0 then 1 else 0)
      8 0x100 0x200 0x300 0x400 4 _ (by decide) rfl
  exact ⟨_, rfl, h5, h6, h2⟩
